import Mathlib

/-!
# Verification of the directorymonster scraping pipeline

A shallow embedding of the pure decision logic of the pipeline:

* `ConversationMemory` — the bounded rolling memory (src/python/ai/memory.py);
* `select_link` — the link selector (src/python/ai/link_selector.py);
* `extractJson` / `parse` / `generate_structured` — the structured output
  parser (src/python/ai/schema_parser.py, src/python/ai/ollama_client.py);
* `navLoop` — the page-navigation decision loop
  (src/python/scraper/search.py, `search_and_navigate`);
* `DataStorage.save` / `DataStorage.load` — JSON persistence
  (src/python/scraper/storage.py);
* `generate` — the model client's retry/backoff loop
  (src/python/ai/ollama_client.py);
* `create_listing` / `list_listings` in mock mode (src/extractor.py).

External effects (HTTP, the browser, the model backend, the file system,
`random`, `time`, `hash`) are threaded explicitly: nondeterministic library
calls become oracle parameters, the file system becomes an explicit map from
paths to (already JSON-decoded) contents, and the model's textual answer is an
input of the embedded function.
-/

namespace DirectoryMonster

/-! ## Memory store (src/python/ai/memory.py)

`ConversationMemory` wraps `collections.deque(maxlen=max_items)`: appending to
a full deque evicts the oldest element.  The deque is embedded as the list of
its elements, oldest first; a `maxlen` deque always holds the `max_items` most
recent appends, i.e. `List.rtake` of the appended list. -/

structure ConversationMemory where
  name : String
  max_items : Nat
  memory : List String

/-- `ConversationMemory.__init__`: fresh memory with an empty deque. -/
def ConversationMemory.mk0 (name : String) (max_items : Nat) : ConversationMemory :=
  ⟨name, max_items, []⟩

/-- `ConversationMemory.add`: `self.memory.append(item)` on a
`deque(maxlen=max_items)` keeps only the `max_items` most recent items. -/
def ConversationMemory.add (m : ConversationMemory) (item : String) : ConversationMemory :=
  { m with memory := List.rtake (m.memory ++ [item]) m.max_items }

/-- `ConversationMemory.get_context`: a sentinel when empty, otherwise the
items rendered as a bulleted list joined by newlines. -/
def ConversationMemory.get_context (m : ConversationMemory) : String :=
  if m.memory.isEmpty then "No previous context."
  else String.intercalate "\n" (m.memory.map (fun item => "- " ++ item))

/-- Adding a whole list of items one by one via `add`. -/
def addAll (m : ConversationMemory) (items : List String) : ConversationMemory :=
  items.foldl ConversationMemory.add m

lemma rtake_of_length_le {α : Type} (l : List α) (n : Nat) (h : l.length ≤ n) :
    List.rtake l n = l := by
  unfold List.rtake
  rw [Nat.sub_eq_zero_of_le h, List.drop_zero]

lemma length_rtake {α : Type} (l : List α) (n : Nat) :
    (List.rtake l n).length = min n l.length := by
  unfold List.rtake
  rw [List.length_drop]
  omega

lemma rtake_append_rtake {α : Type} (a b : List α) (n : Nat) :
    List.rtake (List.rtake a n ++ b) n = List.rtake (a ++ b) n := by
  simp only [List.rtake_eq_reverse_take_reverse, List.reverse_append, List.reverse_reverse]
  congr 1
  rw [List.take_append_eq_append_take, List.take_take,
    Nat.min_eq_left (Nat.sub_le _ _), ← List.take_append_eq_append_take]

lemma addAll_memory (items : List String) :
    ∀ m : ConversationMemory, m.memory.length ≤ m.max_items →
      (addAll m items).memory = List.rtake (m.memory ++ items) m.max_items ∧
      (addAll m items).max_items = m.max_items := by
  induction items with
  | nil =>
    intro m hm
    simpa [addAll] using (rtake_of_length_le m.memory m.max_items hm).symm
  | cons i items ih =>
    intro m hm
    have hlen : (m.add i).memory.length ≤ (m.add i).max_items := by
      simp only [ConversationMemory.add]
      rw [length_rtake]
      exact Nat.min_le_left _ _
    have h := ih (m.add i) hlen
    have hmax : (m.add i).max_items = m.max_items := rfl
    constructor
    · have h1 := h.1
      simp only [addAll, List.foldl_cons] at h1 ⊢
      rw [h1, hmax]
      simp only [ConversationMemory.add]
      rw [rtake_append_rtake, List.append_assoc]
      rfl
    · have h2 := h.2
      simp only [addAll, List.foldl_cons] at h2 ⊢
      rw [h2, hmax]

/-- C1: for every memory buffer of capacity `N > 0`, after inserting `M > N`
items via `add`, the buffer holds exactly the `N` most recently added items in
insertion order, `get_context` renders exactly those items as a bulleted list,
and at no point during the insertions does the buffer hold more than `N`
items. -/
theorem C1_memory_capacity_and_context (name : String) (N : Nat) (items : List String)
    (hN : 0 < N) (hM : N < items.length) :
    (addAll (ConversationMemory.mk0 name N) items).memory
        = items.drop (items.length - N) ∧
    (addAll (ConversationMemory.mk0 name N) items).get_context
        = String.intercalate "\n"
            ((items.drop (items.length - N)).map (fun item => "- " ++ item)) ∧
    ∀ k, ((addAll (ConversationMemory.mk0 name N) (items.take k)).memory).length ≤ N := by
  have hbase : (ConversationMemory.mk0 name N).memory.length ≤
      (ConversationMemory.mk0 name N).max_items := by
    simp [ConversationMemory.mk0]
  have hmem := (addAll_memory items (ConversationMemory.mk0 name N) hbase).1
  have hmem' : (addAll (ConversationMemory.mk0 name N) items).memory
      = items.drop (items.length - N) := by
    rw [hmem]
    simp only [ConversationMemory.mk0, List.nil_append]
    rfl
  refine ⟨hmem', ?_, ?_⟩
  · have hne : ¬ (addAll (ConversationMemory.mk0 name N) items).memory.isEmpty := by
      rw [hmem']
      have hlen : (items.drop (items.length - N)).length = N := by
        rw [List.length_drop]
        omega
      intro hemp
      rw [List.isEmpty_iff] at hemp
      rw [hemp] at hlen
      simp at hlen
      omega
    rw [ConversationMemory.get_context, if_neg hne, hmem']
  · intro k
    have h := (addAll_memory (items.take k) (ConversationMemory.mk0 name N) hbase).1
    rw [h]
    simp only [ConversationMemory.mk0, List.nil_append]
    rw [length_rtake]
    exact Nat.min_le_left _ _

/-- Witness for C1 at a concrete input: capacity 2, three inserted items. -/
theorem C1_witness :
    (addAll (ConversationMemory.mk0 "link_selection" 2) ["a", "b", "c"]).memory
      = ["b", "c"] := by
  have h := C1_memory_capacity_and_context "link_selection" 2 ["a", "b", "c"]
    (by decide) (by decide)
  rw [h.1]
  rfl

/-! ## Link selector (src/python/ai/link_selector.py)

`LinkSelector.select_link` filters out previously chosen links, resets the
history when the filtered pool is empty, samples at most 10 candidates
(`random.sample`, an oracle here), asks the model for a `SELECTION: n` line
(the parsed number, or `none` when no number was found, is an input here),
and appends the chosen link to `self.chosen_links`, truncating that history
to its 20 most recent entries on the successfully-parsed in-range path.
`random.choice` for the fallback is the `pick` oracle. -/

/-- `[link for link in links if link not in self.chosen_links]`. -/
def newLinks (chosen links : List String) : List String :=
  links.filter (fun l => decide (l ∉ chosen))

/-- The filter-or-reset step: returns the (possibly reset) history and the
candidate pool (`new_links` in the source). -/
def candidatePool (chosen links : List String) : List String × List String :=
  if (newLinks chosen links).isEmpty then ([], links) else (chosen, newLinks chosen links)

/-- `random.sample(new_links, 10)` when more than 10 candidates remain,
otherwise the pool itself.  `so` is the sampling oracle. -/
def sampleLinks (so : List String → List String) (pool : List String) : List String :=
  if pool.length > 10 then so pool else pool

/-- The sampled candidate pool a call to `select_link` works with. -/
def sampledPool (so : List String → List String) (chosen links : List String) :
    List String :=
  sampleLinks so (candidatePool chosen links).2

/-- `LinkSelector.select_link`, state-passing style: takes the parsed
`SELECTION` number (`parseSel`), the links and the current `chosen_links`
history; returns the selected link (or `none` when `links` is empty) and the
new history. -/
def select_link (so : List String → List String) (pick : List String → String)
    (parseSel : Option Nat) (links chosen : List String) :
    Option String × List String :=
  if links.isEmpty then (none, chosen)
  else
    let cp := candidatePool chosen links
    let sample := sampledPool so chosen links
    match parseSel with
    | some n =>
      if 1 ≤ n ∧ n ≤ sample.length then
        let sel := sample.getD (n - 1) ""
        let h := cp.1 ++ [sel]
        (some sel, if h.length > 20 then List.rtake h 20 else h)
      else
        let sel := pick sample
        (some sel, cp.1 ++ [sel])
    | none =>
      let sel := pick sample
      (some sel, cp.1 ++ [sel])

lemma sampledPool_length_le (so : List String → List String) (chosen links : List String)
    (hso : ∀ l, List.Sublist (so l) l) :
    (sampledPool so chosen links).length ≤ links.length := by
  have hpool : (candidatePool chosen links).2.length ≤ links.length := by
    rw [candidatePool]
    by_cases h1 : (newLinks chosen links).isEmpty
    · rw [if_pos h1]
    · rw [if_neg h1]
      exact List.length_filter_le _ _
  rw [sampledPool, sampleLinks]
  by_cases h2 : (candidatePool chosen links).2.length > 10
  · rw [if_pos h2]
    exact le_trans (hso _).length_le hpool
  · rw [if_neg h2]
    exact hpool

/-- C2: for every link list presented to `select_link` (with the sampling
oracle returning a sublist, as `random.sample` does): previously selected
links are excluded from the candidate pool; when the filtered pool is empty
the history resets and the pool becomes the full list; a successfully parsed
selection number is accepted only when it lies in `[1, |sample|] ⊆ [1, K]`
(`K` the size of the presented list), in which case that candidate is
returned; an out-of-range or unparsable selection falls back to the `pick`
oracle (`random.choice`). -/
theorem C2_select_link_index_and_pool (so : List String → List String)
    (pick : List String → String) (parseSel : Option Nat) (links chosen : List String)
    (hso : ∀ l, List.Sublist (so l) l) (hlinks : links ≠ []) :
    (newLinks chosen links ≠ [] →
      candidatePool chosen links = (chosen, newLinks chosen links)) ∧
    (newLinks chosen links = [] → candidatePool chosen links = ([], links)) ∧
    (∀ n, parseSel = some n → 1 ≤ n → n ≤ (sampledPool so chosen links).length →
      (select_link so pick parseSel links chosen).1
          = some ((sampledPool so chosen links).getD (n - 1) "") ∧ n ≤ links.length) ∧
    (∀ n, parseSel = some n → ¬ (1 ≤ n ∧ n ≤ (sampledPool so chosen links).length) →
      (select_link so pick parseSel links chosen).1
          = some (pick (sampledPool so chosen links))) ∧
    (parseSel = none →
      (select_link so pick parseSel links chosen).1
          = some (pick (sampledPool so chosen links))) := by
  have hempty : links.isEmpty = false := by
    rw [Bool.eq_false_iff]
    intro h
    exact hlinks (List.isEmpty_iff.mp h)
  refine ⟨?_, ?_, ?_, ?_, ?_⟩
  · intro h
    have : (newLinks chosen links).isEmpty = false := by
      rw [Bool.eq_false_iff]
      intro hh
      exact h (List.isEmpty_iff.mp hh)
    simp [candidatePool, this]
  · intro h
    simp [candidatePool, h]
  · intro n hn h1 h2
    constructor
    · simp only [select_link, hempty, Bool.false_eq_true, if_false, hn]
      rw [if_pos ⟨h1, h2⟩]
    · exact le_trans h2 (sampledPool_length_le so chosen links hso)
  · intro n hn hrange
    simp only [select_link, hempty, Bool.false_eq_true, if_false, hn]
    rw [if_neg hrange]
  · intro hn
    simp [select_link, hempty, hn]

/-- Witness for C2 at a concrete input: two links of which one was already
chosen; the model answers `SELECTION: 1`. -/
theorem C2_witness :
    (select_link (fun l => l.take 10) (fun l => l.getD 0 "") (some 1)
        ["a", "b"] ["a"]).1 = some "b" := by
  have h := C2_select_link_index_and_pool (fun l => l.take 10) (fun l => l.getD 0 "")
    (some 1) ["a", "b"] ["a"] (fun l => List.take_sublist 10 l) (by decide)
  have h3 := (h.2.2.1 1 rfl (by decide) (by decide)).1
  rw [h3]
  rfl

/-- C10: on the successfully-parsed in-range path of `select_link` (with a
non-empty filtered pool, so no reset happens), the retained history is
exactly the 20 most recent entries of the extended history — in particular it
never exceeds 20 entries — and any link of the list that fell out of the
retained history is back in the candidate pool of the next call, so it may be
selected again before the candidate set is exhausted. -/
theorem C10_history_truncation (so : List String → List String)
    (pick : List String → String) (links chosen : List String) (n : Nat)
    (hne : newLinks chosen links ≠ []) (hlinks : links ≠ [])
    (h1 : 1 ≤ n) (h2 : n ≤ (sampledPool so chosen links).length) :
    (select_link so pick (some n) links chosen).2
        = List.rtake (chosen ++ [(sampledPool so chosen links).getD (n - 1) ""]) 20 ∧
    (select_link so pick (some n) links chosen).2.length ≤ 20 ∧
    (∀ l ∈ links, l ∉ (select_link so pick (some n) links chosen).2 →
      l ∈ (candidatePool (select_link so pick (some n) links chosen).2 links).2) := by
  have hempty : links.isEmpty = false := by
    rw [Bool.eq_false_iff]
    intro h
    exact hlinks (List.isEmpty_iff.mp h)
  have hcp : candidatePool chosen links = (chosen, newLinks chosen links) := by
    have : (newLinks chosen links).isEmpty = false := by
      rw [Bool.eq_false_iff]
      intro hh
      exact hne (List.isEmpty_iff.mp hh)
    simp [candidatePool, this]
  have hsel : (select_link so pick (some n) links chosen).2
      = List.rtake (chosen ++ [(sampledPool so chosen links).getD (n - 1) ""]) 20 := by
    simp only [select_link, hempty, Bool.false_eq_true, if_false]
    rw [if_pos ⟨h1, h2⟩, hcp]
    dsimp only
    by_cases hl : (chosen ++ [(sampledPool so chosen links).getD (n - 1) ""]).length > 20
    · rw [if_pos hl]
    · rw [if_neg hl]
      exact (rtake_of_length_le _ 20 (by omega)).symm
  refine ⟨hsel, ?_, ?_⟩
  · rw [hsel, length_rtake]
    exact Nat.min_le_left _ _
  · intro l hl hnot
    have hmem : l ∈ newLinks (select_link so pick (some n) links chosen).2 links := by
      rw [newLinks, List.mem_filter]
      exact ⟨hl, by simpa using hnot⟩
    have hnonempty : (newLinks (select_link so pick (some n) links chosen).2 links).isEmpty
        = false := by
      rw [Bool.eq_false_iff]
      intro hh
      rw [List.isEmpty_iff.mp hh] at hmem
      exact List.not_mem_nil l hmem
    rw [candidatePool, hnonempty]
    simpa using hmem

/-- Witness for C10 at a concrete input: a history of 20 links, a fresh link
selected; the oldest history entry is dropped and re-enters the pool. -/
theorem C10_witness :
    (select_link (fun l => l.take 10) (fun l => l.getD 0 "") (some 1)
        ["x", "c1"] ["c1", "c2", "c3", "c4", "c5", "c6", "c7", "c8", "c9", "c10",
          "c11", "c12", "c13", "c14", "c15", "c16", "c17", "c18", "c19", "c20"]).2
      = ["c2", "c3", "c4", "c5", "c6", "c7", "c8", "c9", "c10",
          "c11", "c12", "c13", "c14", "c15", "c16", "c17", "c18", "c19", "c20", "x"] ∧
    "c1" ∈ (candidatePool
        ["c2", "c3", "c4", "c5", "c6", "c7", "c8", "c9", "c10",
          "c11", "c12", "c13", "c14", "c15", "c16", "c17", "c18", "c19", "c20", "x"]
        ["x", "c1"]).2 := by
  have h := C10_history_truncation (fun l => l.take 10) (fun l => l.getD 0 "")
    ["x", "c1"]
    ["c1", "c2", "c3", "c4", "c5", "c6", "c7", "c8", "c9", "c10",
      "c11", "c12", "c13", "c14", "c15", "c16", "c17", "c18", "c19", "c20"]
    1 (by decide) (by decide) (by decide) (by decide)
  constructor
  · rw [h.1]
    decide
  · decide

/-! ## Structured output parsing (src/python/ai/schema_parser.py,
src/python/ai/ollama_client.py)

The model's answer is a character sequence (`Chars`).  `json.loads` is the
`loads` oracle (`none` models `json.JSONDecodeError`); pydantic validation is
the `validate` oracle (`none` result models `ValidationError`, in which case
`parse` returns the raw parsed data, as the source does). -/

abbrev Chars := List Char

/-- The backtick character (0x60). -/
def btick : Char := Char.ofNat 96

/-- The `` ```json `` code-fence marker. -/
def fenceJson : Chars := "```json".data

/-- The generic `` ``` `` code-fence marker. -/
def fence : Chars := "```".data

/-- Whitespace as stripped by Python `str.strip()`. -/
def isPyWS (c : Char) : Bool :=
  c = ' ' || c = '\n' || c = '\t' || c = '\r' || c = '\x0b' || c = '\x0c'

/-- Drop leading whitespace. -/
def trimL : Chars → Chars
  | [] => []
  | c :: cs => if isPyWS c then trimL cs else c :: cs

/-- Python `str.strip()`: drop leading and trailing whitespace. -/
def pyStrip (l : Chars) : Chars := (trimL (trimL l).reverse).reverse

/-- Match `pat` at the head of the text; on success return the remainder. -/
def dropPre : Chars → Chars → Option Chars
  | [], l => some l
  | _ :: _, [] => none
  | p :: ps, c :: cs => if c = p then dropPre ps cs else none

/-- Python `text.split(sep, 1)` for a separator that occurs in `text`: the
parts before and after the first occurrence, `none` when `sep` does not occur
(so `(splitOnce sep l).isSome` models `sep in l`). -/
def splitOnce (sep : Chars) : Chars → Option (Chars × Chars)
  | [] => (dropPre sep []).map (fun r => (([] : Chars), r))
  | c :: cs =>
    match dropPre sep (c :: cs) with
    | some rest => some ([], rest)
    | none => (splitOnce sep cs).map (fun p => (c :: p.1, p.2))

/-- Index of the first occurrence of `c` (Python `str.find`). -/
def firstIdxOf (c : Char) (l : Chars) : Option Nat := l.findIdx? (· = c)

/-- Index of the last occurrence of `c` (Python `str.rfind`). -/
def lastIdxOf (c : Char) (l : Chars) : Option Nat :=
  (firstIdxOf c l.reverse).map (fun i => l.length - 1 - i)

/-- The `text[start_idx:end_idx + 1]` slice between the first `{` and the
last `}`, when both exist in that order; otherwise the text itself. -/
def braceSlice (text : Chars) : Chars :=
  match firstIdxOf (Char.ofNat 123) text, lastIdxOf (Char.ofNat 125) text with
  | some s, some e => if s < e then (text.drop s).take (e + 1 - s) else text
  | some _, none => text
  | none, _ => text

/-- `JsonOutputParser._extract_json` after the initial `text.strip()`. -/
def extractJsonStripped {J : Type} (loads : Chars → Option J) (text : Chars) : Chars :=
  if (loads text).isSome then text
  else
    match splitOnce fenceJson text with
    | some (_, rest) =>
      match splitOnce fence rest with
      | some (inner, _) => pyStrip inner
      | none => pyStrip rest
    | none =>
      match splitOnce fence text with
      | some (_, rest) =>
        match splitOnce fence rest with
        | some (inner, _) => pyStrip inner
        | none => pyStrip rest
      | none => braceSlice text

/-- `JsonOutputParser._extract_json`. -/
def extractJson {J : Type} (loads : Chars → Option J) (text : Chars) : Chars :=
  extractJsonStripped loads (pyStrip text)

/-- Pydantic validation step of `JsonOutputParser.parse`: validated data on
success, the raw parsed data on `ValidationError`, untouched data when no
model is configured. -/
def pyValidate {J : Type} (validate : Option (J → Option J)) (d : J) : J :=
  match validate with
  | some v => (v d).getD d
  | none => d

/-- `JsonOutputParser.parse`: extract, `json.loads`, optional validation;
`Except.error` models the `ValueError` raised on `json.JSONDecodeError`. -/
def JsonOutputParser.parse {J : Type} (loads : Chars → Option J)
    (validate : Option (J → Option J)) (text : Chars) : Except String J :=
  match loads (extractJson loads text) with
  | some data => .ok (pyValidate validate data)
  | none => .error "Invalid JSON"

/-- Values of the diagnostic mapping. -/
inductive PVal where
  | bool (b : Bool)
  | str (s : Chars)
deriving DecidableEq

/-- The diagnostic mapping `generate_structured` returns when all JSON
parsing fails: `is_product: False`, the first 500 characters of the raw
response, and an `error` entry (whose tail, `str(json_err)`, is a library
detail kept abstract here). -/
def errorMapping (response : Chars) : List (String × PVal) :=
  [("is_product", PVal.bool false),
    ("raw_response", PVal.str (response.take 500)),
    ("error", PVal.str "JSON parsing failed: ".data)]

/-- `OllamaClient.generate_structured` from the model's `response_text` on:
parse; a `ValueError` is caught and the extracted text re-parsed with plain
`json.loads`; when that fails too, the diagnostic mapping is returned. -/
def generate_structured {J : Type} (loads : Chars → Option J)
    (validate : Option (J → Option J)) (response : Chars) :
    J ⊕ List (String × PVal) :=
  match JsonOutputParser.parse loads validate response with
  | .ok d => .inl d
  | .error _ =>
    match loads (extractJson loads response) with
    | some d => .inl d
    | none => .inr (errorMapping response)

lemma trimL_not_ws (c : Char) (cs : Chars) (h : isPyWS c = false) :
    trimL (c :: cs) = c :: cs := by
  simp [trimL, h]

lemma pyStrip_eq_self (l : Chars)
    (h1 : ∀ c, l.head? = some c → isPyWS c = false)
    (h2 : ∀ c, l.getLast? = some c → isPyWS c = false) :
    pyStrip l = l := by
  have e1 : trimL l = l := by
    cases l with
    | nil => rfl
    | cons a as => exact trimL_not_ws a as (h1 a rfl)
  have e2 : trimL l.reverse = l.reverse := by
    cases hr : l.reverse with
    | nil => rfl
    | cons b bs =>
      have hb : isPyWS b = false := by
        apply h2
        rw [← List.head?_reverse, hr]
        rfl
      exact trimL_not_ws b bs hb
  unfold pyStrip
  rw [e1, e2, List.reverse_reverse]

lemma dropPre_append (p r : Chars) : dropPre p (p ++ r) = some r := by
  induction p with
  | nil => rfl
  | cons x xs ih => simp [dropPre, ih]

lemma splitOnce_cons_self (s : Char) (ss rest : Chars) :
    splitOnce (s :: ss) (s :: (ss ++ rest)) = some ([], rest) := by
  have h : dropPre (s :: ss) (s :: (ss ++ rest)) = some rest := by
    simpa using dropPre_append (s :: ss) rest
  simp [splitOnce, h]

lemma splitOnce_past_body (s : Char) (ss body rest : Chars)
    (hb : ∀ c ∈ body, c ≠ s) :
    splitOnce (s :: ss) (body ++ s :: (ss ++ rest)) = some (body, rest) := by
  induction body with
  | nil => simpa using splitOnce_cons_self s ss rest
  | cons c cs ih =>
    have hc : c ≠ s := hb c (List.mem_cons_self c cs)
    have hdp : dropPre (s :: ss) (c :: (cs ++ s :: (ss ++ rest))) = none := by
      simp [dropPre, hc]
    have ihx := ih (fun d hd => hb d (List.mem_cons_of_mem c hd))
    simp [splitOnce, hdp, ihx]

lemma pyStrip_json_fenced (body : Chars) :
    pyStrip (fenceJson ++ (body ++ fence)) = fenceJson ++ (body ++ fence) := by
  apply pyStrip_eq_self
  · intro c hc
    have hfj : fenceJson = btick :: "``json".data := by decide
    rw [hfj] at hc
    simp only [List.cons_append, List.head?_cons, Option.some.injEq] at hc
    rw [← hc]
    decide
  · intro c hc
    have hf : fence = "``".data ++ [btick] := by decide
    rw [hf, show fenceJson ++ (body ++ ("``".data ++ [btick]))
        = (fenceJson ++ (body ++ "``".data)) ++ [btick] by simp,
      List.getLast?_concat] at hc
    have hc' : btick = c := Option.some.inj hc
    rw [← hc']
    decide

lemma pyStrip_plain_fenced (body : Chars) :
    pyStrip (fence ++ (body ++ fence)) = fence ++ (body ++ fence) := by
  apply pyStrip_eq_self
  · intro c hc
    have hf : fence = btick :: "``".data := by decide
    rw [hf] at hc
    simp only [List.cons_append, List.head?_cons, Option.some.injEq] at hc
    rw [← hc]
    decide
  · intro c hc
    have hf : fence = "``".data ++ [btick] := by decide
    rw [show fence ++ (body ++ fence)
        = fence ++ (body ++ ("``".data ++ [btick])) by rw [← hf],
      show fence ++ (body ++ ("``".data ++ [btick]))
        = (fence ++ (body ++ "``".data)) ++ [btick] by simp,
      List.getLast?_concat] at hc
    have hc' : btick = c := Option.some.inj hc
    rw [← hc']
    decide

lemma extractJson_json_fenced {J : Type} (loads : Chars → Option J) (body : Chars)
    (hb : ∀ c ∈ body, c ≠ btick)
    (hload : loads (fenceJson ++ (body ++ fence)) = none) :
    extractJson loads (fenceJson ++ (body ++ fence)) = pyStrip body := by
  have hsplit1 : splitOnce fenceJson (fenceJson ++ (body ++ fence))
      = some ([], body ++ fence) := by
    rw [show fenceJson = btick :: "``json".data by decide]
    simpa using splitOnce_cons_self btick ("``json".data) (body ++ fence)
  have hsplit2 : splitOnce fence (body ++ fence) = some (body, []) := by
    rw [show fence = btick :: "``".data by decide]
    simpa using splitOnce_past_body btick ("``".data) body [] hb
  rw [extractJson, pyStrip_json_fenced, extractJsonStripped, hload]
  simp only [Option.isSome_none, Bool.false_eq_true, if_false, hsplit1, hsplit2]

lemma extractJson_plain_fenced {J : Type} (loads : Chars → Option J) (body : Chars)
    (hb : ∀ c ∈ body, c ≠ btick)
    (hnojson : splitOnce fenceJson (fence ++ (body ++ fence)) = none)
    (hload : loads (fence ++ (body ++ fence)) = none) :
    extractJson loads (fence ++ (body ++ fence)) = pyStrip body := by
  have hsplit1 : splitOnce fence (fence ++ (body ++ fence))
      = some ([], body ++ fence) := by
    rw [show fence = btick :: "``".data by decide]
    simpa using splitOnce_cons_self btick ("``".data) (body ++ fence)
  have hsplit2 : splitOnce fence (body ++ fence) = some (body, []) := by
    rw [show fence = btick :: "``".data by decide]
    simpa using splitOnce_past_body btick ("``".data) body [] hb
  rw [extractJson, pyStrip_plain_fenced, extractJsonStripped, hload]
  simp only [Option.isSome_none, Bool.false_eq_true, if_false, hnojson, hsplit1, hsplit2]

/-- C3: for a model response that is a fenced code block (`` ```json `` or
plain `` ``` ``) whose body contains no backtick and holds valid JSON, the
parser extracts exactly the (stripped) enclosed body and returns the decoded
JSON object unchanged (pydantic validation, when configured, is applied on
top; on `ValidationError` the object is still returned unchanged).  For any
response from which no JSON can be decoded, `generate_structured` returns —
without raising — the diagnostic mapping, which carries an `"error"` entry
and `"is_product": False`. -/
theorem C3_fenced_json_extraction (J : Type) (loads : Chars → Option J)
    (validate : Option (J → Option J)) (body body2 : Chars) (j j2 : J)
    (hb : ∀ c ∈ body, c ≠ btick)
    (hloadA : loads (fenceJson ++ (body ++ fence)) = none)
    (hinnerA : loads (pyStrip body) = some j)
    (hb2 : ∀ c ∈ body2, c ≠ btick)
    (hnojson : splitOnce fenceJson (fence ++ (body2 ++ fence)) = none)
    (hloadB : loads (fence ++ (body2 ++ fence)) = none)
    (hinnerB : loads (pyStrip body2) = some j2) :
    extractJson loads (fenceJson ++ (body ++ fence)) = pyStrip body ∧
    JsonOutputParser.parse loads none (fenceJson ++ (body ++ fence)) = .ok j ∧
    generate_structured loads validate (fenceJson ++ (body ++ fence))
        = .inl (pyValidate validate j) ∧
    extractJson loads (fence ++ (body2 ++ fence)) = pyStrip body2 ∧
    JsonOutputParser.parse loads none (fence ++ (body2 ++ fence)) = .ok j2 ∧
    (∀ resp, loads (extractJson loads resp) = none →
      generate_structured loads validate resp = .inr (errorMapping resp) ∧
      (errorMapping resp).lookup "error" = some (PVal.str "JSON parsing failed: ".data) ∧
      (errorMapping resp).lookup "is_product" = some (PVal.bool false)) := by
  have hA := extractJson_json_fenced loads body hb hloadA
  have hB := extractJson_plain_fenced loads body2 hb2 hnojson hloadB
  refine ⟨hA, ?_, ?_, hB, ?_, ?_⟩
  · rw [JsonOutputParser.parse, hA, hinnerA]
    rfl
  · rw [generate_structured, JsonOutputParser.parse, hA, hinnerA]
  · rw [JsonOutputParser.parse, hB, hinnerB]
    rfl
  · intro resp hresp
    refine ⟨?_, rfl, rfl⟩
    rw [generate_structured, JsonOutputParser.parse, hresp]

/-- Witness for C3 at a concrete input: the response
`` ```json\n[1]\n``` `` with a decoder recognising `[1]`, and the unparsable
response `oops`. -/
theorem C3_witness :
    generate_structured
        (fun s => if s = "[1]".data then some (1 : Nat) else none) none
        ("```json\n[1]\n```".data)
      = Sum.inl 1 ∧
    generate_structured
        (fun s => if s = "[1]".data then some (1 : Nat) else none) none
        ("oops".data)
      = Sum.inr (errorMapping "oops".data) := by
  have h := C3_fenced_json_extraction Nat
    (fun s => if s = "[1]".data then some (1 : Nat) else none) none
    ("\n[1]\n".data) ("\n[1]\n".data) 1 1
    (by decide) (by decide) (by decide) (by decide) (by decide) (by decide) (by decide)
  constructor
  · have h3 := h.2.2.1
    have harr : ("```json\n[1]\n```".data : Chars)
        = fenceJson ++ ("\n[1]\n".data ++ fence) := by decide
    rw [harr, h3]
    rfl
  · exact (h.2.2.2.2.2 ("oops".data) (by decide)).1

/-! ## Navigation loop (src/python/scraper/search.py, `search_and_navigate`)

The `while navigation_depth < max_navigation_depth` loop, from the first
analysed page on.  The browser is reduced to the current URL; `driver.get`
(whose failure-to-load branch is not exercised by these claims) moves to the
requested URL.  `_ai_analyze_page` is the `analyze` oracle (`none` models a
falsy analysis result, which aborts); `_select_product_from_category`, the
fallback when a category page carries no recommended links, is the `fb`
oracle (`some u` = the helper clicked through to `u`).  The result is the
returned success flag together with the final `navigation_stack`. -/

inductive PageType where
  | PRODUCT
  | CATEGORY
  | NEITHER
deriving DecidableEq

/-- The structured page-analysis result (`page_type`, `confidence`, `reason`,
`recommended_links` as url/reason pairs, absent normalised to `[]`). -/
structure Analysis where
  page_type : PageType
  confidence : Nat
  reason : String
  recommended_links : List (String × String)
deriving DecidableEq

/-- `max_navigation_depth = 5`. -/
def maxNavigationDepth : Nat := 5

/-- The navigation loop; the fuel argument is
`max_navigation_depth - navigation_depth`. -/
def navLoop (analyze : String → Option Analysis) (fb : String → Option String) :
    Nat → String → List String → Bool × List String
  | 0, _, stack => (false, stack)
  | fuel + 1, url, stack =>
    let stack' := stack ++ [url]
    match analyze url with
    | none => (false, stack')
    | some a =>
      match a.page_type with
      | .PRODUCT => (true, stack')
      | .NEITHER => (false, stack')
      | .CATEGORY =>
        match a.recommended_links with
        | [] =>
          match fb url with
          | some u => navLoop analyze fb fuel u stack'
          | none => (false, stack')
        | (u0, _) :: rest =>
          if u0 ∈ stack' then
            match rest with
            | (u1, _) :: _ => navLoop analyze fb fuel u1 stack'
            | [] => (false, stack')
          else
            navLoop analyze fb fuel u0 stack'

/-- The navigation phase of `search_and_navigate`: the loop started on the
first selected link with an empty navigation stack and depth 0. -/
def navigatePhase (analyze : String → Option Analysis) (fb : String → Option String)
    (startUrl : String) : Bool × List String :=
  navLoop analyze fb maxNavigationDepth startUrl []

/-- C4: for every scripted classification sequence CATEGORY, CATEGORY,
PRODUCT — each CATEGORY recommending a fresh link first — the loop follows
exactly the two recommended links, terminates successfully at depth 3, and
the visited-URL stack holds exactly the three visited URLs in visit order. -/
theorem C4_scripted_navigation (analyze : String → Option Analysis)
    (fb : String → Option String) (u0 u1 u2 : String)
    (c0 : Nat) (r0 : String) (s1 : String) (rest0 : List (String × String))
    (c1 : Nat) (r1 : String) (s2 : String) (rest1 : List (String × String))
    (c2 : Nat) (r2 : String) (links2 : List (String × String))
    (h0 : analyze u0 = some ⟨.CATEGORY, c0, r0, (u1, s1) :: rest0⟩)
    (h1 : analyze u1 = some ⟨.CATEGORY, c1, r1, (u2, s2) :: rest1⟩)
    (h2 : analyze u2 = some ⟨.PRODUCT, c2, r2, links2⟩)
    (hu1 : u1 ≠ u0) (hu2 : u2 ≠ u0) (hu2' : u2 ≠ u1) :
    navigatePhase analyze fb u0 = (true, [u0, u1, u2]) := by
  rw [navigatePhase, maxNavigationDepth]
  rw [show (5 : Nat) = 4 + 1 by rfl, navLoop]
  simp only [List.nil_append, h0]
  rw [if_neg (by simpa using hu1)]
  rw [show (4 : Nat) = 3 + 1 by rfl, navLoop]
  simp only [h1]
  rw [if_neg (by simpa using ⟨hu2, hu2'⟩)]
  rw [show (3 : Nat) = 2 + 1 by rfl, navLoop]
  simp only [h2]
  simp

/-- Witness for C4 at a concrete scripted run. -/
theorem C4_witness :
    navigatePhase
        (fun u =>
          if u = "a" then some ⟨.CATEGORY, 90, "cat", [("b", "looks good")]⟩
          else if u = "b" then some ⟨.CATEGORY, 80, "cat", [("c", "deeper")]⟩
          else if u = "c" then some ⟨.PRODUCT, 95, "product", []⟩
          else none)
        (fun _ => none) "a"
      = (true, ["a", "b", "c"]) := by
  exact C4_scripted_navigation _ _ "a" "b" "c" 90 "cat" "looks good" [] 80 "cat"
    "deeper" [] 95 "product" [] (by decide) (by decide) (by decide)
    (by decide) (by decide) (by decide)

/-- C5: when the top-ranked recommended link of a CATEGORY page is already on
the visited-URL stack, the loop does not navigate to it: with a second
recommendation available it navigates to that next-ranked link instead, and
with no alternative it aborts the attempt. -/
theorem C5_duplicate_recommendation (analyze : String → Option Analysis)
    (fb : String → Option String) (fuel : Nat) (url : String) (stack : List String) :
    (∀ c r u0 s0 u1 s1 rest,
      analyze url = some ⟨.CATEGORY, c, r, (u0, s0) :: (u1, s1) :: rest⟩ →
      u0 ∈ stack ++ [url] →
      navLoop analyze fb (fuel + 1) url stack
          = navLoop analyze fb fuel u1 (stack ++ [url])) ∧
    (∀ c r u0 s0,
      analyze url = some ⟨.CATEGORY, c, r, [(u0, s0)]⟩ →
      u0 ∈ stack ++ [url] →
      navLoop analyze fb (fuel + 1) url stack = (false, stack ++ [url])) := by
  constructor
  · intro c r u0 s0 u1 s1 rest h hdup
    rw [navLoop]
    simp only [h]
    rw [if_pos hdup]
  · intro c r u0 s0 h hdup
    rw [navLoop]
    simp only [h]
    rw [if_pos hdup]

/-- Witness for C5: a category page whose top recommendation is the current
URL itself; the second-ranked link is followed (first conjunct), and with no
second link the attempt aborts (second conjunct, separate script). -/
theorem C5_witness :
    navLoop
        (fun u =>
          if u = "a" then some ⟨.CATEGORY, 90, "cat", [("a", "dup"), ("b", "alt")]⟩
          else if u = "b" then some ⟨.PRODUCT, 95, "product", []⟩
          else none)
        (fun _ => none) 5 "a" []
      = (true, ["a", "b"]) ∧
    navLoop
        (fun u =>
          if u = "a" then some ⟨.CATEGORY, 90, "cat", [("a", "dup")]⟩
          else none)
        (fun _ => none) 5 "a" []
      = (false, ["a"]) := by
  constructor
  · have h := (C5_duplicate_recommendation
      (fun u =>
        if u = "a" then some ⟨.CATEGORY, 90, "cat", [("a", "dup"), ("b", "alt")]⟩
        else if u = "b" then some ⟨.PRODUCT, 95, "product", []⟩
        else none)
      (fun _ => none) 4 "a" []).1 90 "cat" "a" "dup" "b" "alt" []
      (by decide) (by decide)
    rw [show (5 : Nat) = 4 + 1 by rfl, h]
    decide
  · have h := (C5_duplicate_recommendation
      (fun u =>
        if u = "a" then some ⟨.CATEGORY, 90, "cat", [("a", "dup")]⟩
        else none)
      (fun _ => none) 4 "a" []).2 90 "cat" "a" "dup"
      (by decide) (by decide)
    rw [show (5 : Nat) = 4 + 1 by rfl, h]
    decide

/-! ## Storage (src/python/scraper/storage.py)

The file system is an association list from paths to decoded file contents
(newest write first); the contents type `V` is abstract, with `dump` /
`parseJson` oracles standing for `json.dump` / `json.load`.  `writeOk`
models whether opening and writing a given path raises.  Directory creation
and pretty-printing (`indent=2`) live below this abstraction. -/

/-- File system: paths mapped to decoded contents, newest write first. -/
def FS (V : Type) : Type := List (String × V)

/-- Writing a file replaces (shadows) any previous contents at that path. -/
def fsWrite {V : Type} (fs : FS V) (p : String) (v : V) : FS V := (p, v) :: fs

/-- Reading a file: the most recent write to that path, if any. -/
def fsRead {V : Type} (fs : FS V) (p : String) : Option V :=
  List.lookup p fs

/-- `DataStorage.save`: refuses an empty collection (logs and returns
`False` without writing); otherwise writes the dumped collection and returns
`True`; on a write error attempts a fallback write to a timestamped `/tmp`
path and returns `False`; never raises. -/
def DataStorage.save {P V : Type} (writeOk : String → Bool) (dump : List P → V)
    (tmpPath : String) (fs : FS V) (products : List P) (path : String) :
    Bool × FS V :=
  if products.isEmpty then (false, fs)
  else if writeOk path then (true, fsWrite fs path (dump products))
  else if writeOk tmpPath then (false, fsWrite fs tmpPath (dump products))
  else (false, fs)

/-- `DataStorage.load`: the decoded collection, or `[]` when the file is
absent or unreadable; never raises. -/
def DataStorage.load {P V : Type} (parseJson : V → Option (List P)) (fs : FS V)
    (path : String) : List P :=
  match fsRead fs path with
  | none => []
  | some v =>
    match parseJson v with
    | some ps => ps
    | none => []

/-- C6 counterexample: saving the empty collection over a path that already
holds `[1]`.  No write error occurs (`writeOk` is constantly true), yet
`load` afterwards returns the previously stored collection `[1]`, not the
empty collection that was saved — `save` refuses empty collections without
writing. -/
theorem C6_counterexample :
    DataStorage.load (fun v : List Nat => some v)
        (DataStorage.save (fun _ => true) (fun l : List Nat => l) "/tmp/fallback"
          [("/data/products.json", [1])] [] "/data/products.json").2
        "/data/products.json"
      ≠ ([] : List Nat) := by
  decide

/-- C6 (amended to non-empty collections): for every non-empty record list,
`save` followed by `load` on the same path returns a collection equal to the
one saved, provided the write succeeds and JSON decoding inverts encoding. -/
theorem C6_save_load_roundtrip (P V : Type) (writeOk : String → Bool)
    (dump : List P → V) (parseJson : V → Option (List P)) (tmpPath path : String)
    (fs : FS V) (products : List P) (hne : products ≠ [])
    (hw : writeOk path = true) (hrt : parseJson (dump products) = some products) :
    DataStorage.load parseJson
        (DataStorage.save writeOk dump tmpPath fs products path).2 path
      = products := by
  have hempty : products.isEmpty = false := by
    rw [Bool.eq_false_iff]
    intro h
    exact hne (List.isEmpty_iff.mp h)
  rw [DataStorage.save, hempty]
  simp only [Bool.false_eq_true, if_false, hw, if_true]
  rw [DataStorage.load]
  have hread : fsRead (fsWrite fs path (dump products)) path = some (dump products) := by
    simp [fsRead, fsWrite, List.lookup]
  rw [hread]
  dsimp only
  rw [hrt]

/-- Witness for the amended C6 at a concrete input. -/
theorem C6_witness :
    DataStorage.load (fun v : List Nat => some v)
        (DataStorage.save (fun _ => true) (fun l : List Nat => l) "/tmp/fallback"
          [] [1, 2] "/data/products.json").2
        "/data/products.json"
      = [1, 2] := by
  exact C6_save_load_roundtrip Nat (List Nat) (fun _ => true) (fun l => l)
    (fun v => some v) "/tmp/fallback" "/data/products.json" [] [1, 2]
    (by decide) rfl rfl

/-- C7 counterexample: saving the empty collection with every write
succeeding.  The claim promises a successful pretty-printed write, but the
code returns `False` and writes nothing. -/
theorem C7_counterexample :
    DataStorage.save (fun _ => true) (fun l : List Nat => l) "/tmp/fallback"
        [] [] "/data/products.json"
      = (false, []) := by
  rfl

/-- C7 (amended to non-empty collections): `save` writes the dumped
collection to the path and returns success when the write succeeds; on a
write error it attempts a fallback write to the temporary path and returns
failure; it refuses an empty collection, returning failure without writing;
in no case does it raise (it is a total function). -/
theorem C7_save_behaviour (P V : Type) (writeOk : String → Bool) (dump : List P → V)
    (tmpPath path : String) (fs : FS V) (products : List P) :
    (products ≠ [] → writeOk path = true →
      DataStorage.save writeOk dump tmpPath fs products path
        = (true, fsWrite fs path (dump products))) ∧
    (products ≠ [] → writeOk path = false → writeOk tmpPath = true →
      DataStorage.save writeOk dump tmpPath fs products path
        = (false, fsWrite fs tmpPath (dump products))) ∧
    (products ≠ [] → writeOk path = false → writeOk tmpPath = false →
      DataStorage.save writeOk dump tmpPath fs products path = (false, fs)) ∧
    (products = [] →
      DataStorage.save writeOk dump tmpPath fs products path = (false, fs)) := by
  refine ⟨?_, ?_, ?_, ?_⟩
  · intro hne hw
    have hempty : products.isEmpty = false := by
      rw [Bool.eq_false_iff]
      intro h
      exact hne (List.isEmpty_iff.mp h)
    rw [DataStorage.save, hempty]
    simp [hw]
  · intro hne hw ht
    have hempty : products.isEmpty = false := by
      rw [Bool.eq_false_iff]
      intro h
      exact hne (List.isEmpty_iff.mp h)
    rw [DataStorage.save, hempty]
    simp [hw, ht]
  · intro hne hw ht
    have hempty : products.isEmpty = false := by
      rw [Bool.eq_false_iff]
      intro h
      exact hne (List.isEmpty_iff.mp h)
    rw [DataStorage.save, hempty]
    simp [hw, ht]
  · intro he
    rw [DataStorage.save, he]
    simp

/-- Witness for the amended C7 at concrete inputs: a successful write and a
failed write falling back to the temporary path. -/
theorem C7_witness :
    DataStorage.save (fun _ => true) (fun l : List Nat => l) "/tmp/fallback"
        [] [1] "/data/products.json"
      = (true, [("/data/products.json", [1])]) ∧
    DataStorage.save (fun p => p = "/tmp/fallback") (fun l : List Nat => l)
        "/tmp/fallback" [] [1] "/data/products.json"
      = (false, [("/tmp/fallback", [1])]) := by
  constructor
  · exact (C7_save_behaviour Nat (List Nat) (fun _ => true) (fun l => l)
      "/tmp/fallback" "/data/products.json" [] [1]).1 (by decide) rfl
  · exact (C7_save_behaviour Nat (List Nat) (fun p => p = "/tmp/fallback") (fun l => l)
      "/tmp/fallback" "/data/products.json" [] [1]).2.1 (by decide) (by decide) (by decide)

/-! ## Model client retry loop (src/python/ai/ollama_client.py, `generate`)

One network attempt per loop iteration; the `k`-th attempt's result is
`outcomes k` (`failure msg` covers both a non-200 status, `msg` the status
code, and a raised exception, `msg` its text).  The embedding returns the
function's result together with the list of backoff delays slept, in order:
after the failed attempt number `retries` the code sleeps
`retry_delay * 2 ** (retries - 1)` seconds with the incremented counter. -/

inductive Outcome where
  | success (text : String)
  | failure (msg : String)

/-- The `while retries <= max_retries` loop body of `OllamaClient.generate`;
the fuel is `max_retries + 1 - retries` (the remaining attempts), so the
fuel-0 branch is never reached from `generate`. -/
def generateGo (outcomes : Nat → Outcome) (maxRetries retryDelay : Nat) :
    Nat → Nat → String × List Nat
  | 0, _ => ("", [])
  | fuel + 1, retries =>
    match outcomes retries with
    | .success t => (t, [])
    | .failure msg =>
      if retries + 1 ≤ maxRetries then
        let w := retryDelay * 2 ^ retries
        let r := generateGo outcomes maxRetries retryDelay fuel (retries + 1)
        (r.1, w :: r.2)
      else ("Error: " ++ msg, [])

/-- `OllamaClient.generate` (from the first request on; rate limiting and
debug dumps are outside the embedding): result text and backoff delays. -/
def generate (outcomes : Nat → Outcome) (maxRetries retryDelay : Nat) :
    String × List Nat :=
  generateGo outcomes maxRetries retryDelay (maxRetries + 1) 0

lemma generateGo_all_fail (outcomes : Nat → Outcome) (msgs : Nat → String)
    (maxR delay : Nat) (hfail : ∀ k, k ≤ maxR → outcomes k = .failure (msgs k)) :
    ∀ n r, r + n = maxR →
      generateGo outcomes maxR delay (n + 1) r
        = ("Error: " ++ msgs maxR, (List.range' r n).map (fun k => delay * 2 ^ k)) := by
  intro n
  induction n with
  | zero =>
    intro r hr
    have hrm : r = maxR := by omega
    subst hrm
    rw [generateGo, hfail r le_rfl]
    dsimp only
    rw [if_neg (show ¬ (r + 1 ≤ r) by omega)]
    rfl
  | succ n ih =>
    intro r hr
    rw [generateGo, hfail r (by omega)]
    dsimp only
    rw [if_pos (show r + 1 ≤ maxR by omega)]
    have hrec := ih (r + 1) (by omega)
    simp only [hrec, List.range'_succ, List.map_cons]

/-- C8: when every attempt fails, `generate` makes `max_retries + 1` attempts
in total, sleeping exactly the exponential backoff delays
`retry_delay * 2 ^ (attempt - 1)` for `attempt = 1 .. max_retries`, and then
returns the error string for the last failure rather than raising (the
embedding is a total function). -/
theorem C8_retry_backoff (outcomes : Nat → Outcome) (msgs : Nat → String)
    (maxR delay : Nat) (hfail : ∀ k, k ≤ maxR → outcomes k = .failure (msgs k)) :
    generate outcomes maxR delay
        = ("Error: " ++ msgs maxR, (List.range maxR).map (fun k => delay * 2 ^ k)) ∧
    (generate outcomes maxR delay).2.length = maxR := by
  have h := generateGo_all_fail outcomes msgs maxR delay hfail maxR 0 (by omega)
  rw [List.range_eq_range']
  refine ⟨h, ?_⟩
  rw [generate, h]
  simp

/-- Witness for C8 at a concrete input: every attempt answers HTTP 500,
`max_retries = 3`, `retry_delay = 2`; the delays are 2, 4, 8 seconds. -/
theorem C8_witness :
    generate (fun _ => Outcome.failure "500") 3 2 = ("Error: 500", [2, 4, 8]) := by
  have h := (C8_retry_backoff (fun _ => Outcome.failure "500") (fun _ => "500") 3 2
    (fun _ _ => rfl)).1
  rw [h]
  rfl

/-! ## API client in mock mode (src/extractor.py, `DirectoryMonsterClient`)

Listings are Python dicts, embedded as association lists where **later
entries override earlier ones** — the semantics of the
`{"id": ..., "siteSlug": ..., **listing_data}` merge.  The output file is
carried as its decoded contents (`none` = absent, unparsable or non-list
contents, all of which the source treats as `[]`).  `genId` stands for the
synthesized `f"listing_{int(time.time())}_{hash(...)}"` identifier (`time` and
`hash` being external). -/

/-- A Python dict as an association list, later entries overriding. -/
abbrev Dict := List (String × String)

/-- Python dict lookup under the later-entries-override reading. -/
def dget : Dict → String → Option String
  | [], _ => none
  | (k, v) :: rest, key =>
    match dget rest key with
    | some v' => some v'
    | none => if k = key then some v else none

/-- The mock-mode listing `{"id": genId, "siteSlug": slug, **listing_data}`. -/
def mkListing (genId slug : String) (listing_data : Dict) : Dict :=
  ("id", genId) :: ("siteSlug", slug) :: listing_data

/-- `DirectoryMonsterClient.create_listing` in mock mode: builds the listing,
appends it to the decoded output file and writes it back, returning the
listing and the new file contents. -/
def create_listing_mock (genId slug : String) (ld : Dict)
    (file : Option (List Dict)) : Dict × List Dict :=
  let listing := mkListing genId slug ld
  (listing, file.getD [] ++ [listing])

/-- `DirectoryMonsterClient.list_listings` in mock mode: the decoded file
contents filtered to the entries whose `siteSlug` equals the requested
slug. -/
def list_listings_mock (slug : String) (file : Option (List Dict)) : List Dict :=
  (file.getD []).filter (fun d => decide (dget d "siteSlug" = some slug))

/-- C9 counterexample: listing data that itself carries a `siteSlug` entry.
The `**listing_data` merge overrides the slug stored on the listing, so
`list_listings` for the site the listing was created in does not return
it. -/
theorem C9_counterexample :
    (create_listing_mock "listing_1_7" "shoes" [("siteSlug", "other")] none).1
      ∉ list_listings_mock "shoes"
          (some (create_listing_mock "listing_1_7" "shoes" [("siteSlug", "other")] none).2) := by
  decide

lemma dget_not_key (ld : Dict) (key : String) (h : key ∉ ld.map Prod.fst) :
    dget ld key = none := by
  induction ld with
  | nil => rfl
  | cons kv rest ih =>
    have hk : key ≠ kv.1 := by
      intro hkey
      exact h (by simp [hkey])
    have hrest : key ∉ rest.map Prod.fst := by
      intro hmem
      exact h (by simp [hmem])
    cases kv with
    | mk k v =>
      rw [dget, ih hrest]
      simp only
      rw [if_neg (fun hkk => hk (by simpa using hkk.symm))]

/-- C9 (amended to listing data without reserved keys): when the listing data
carries no `siteSlug` or `id` entry of its own — the listing shape of the
data model — `create_listing` followed by `list_listings` for the same site
slug returns a list containing the created listing, and that listing carries
the synthesized identifier. -/
theorem C9_mock_create_then_list (genId slug : String) (ld : Dict)
    (file : Option (List Dict))
    (hslug : "siteSlug" ∉ ld.map Prod.fst) (hid : "id" ∉ ld.map Prod.fst) :
    (create_listing_mock genId slug ld file).1
        ∈ list_listings_mock slug (some (create_listing_mock genId slug ld file).2) ∧
    dget (create_listing_mock genId slug ld file).1 "id" = some genId := by
  have hgetslug : dget (mkListing genId slug ld) "siteSlug" = some slug := by
    rw [mkListing, dget, dget, dget_not_key ld "siteSlug" hslug]
    rfl
  have hgetid : dget (mkListing genId slug ld) "id" = some genId := by
    rw [mkListing, dget, dget, dget_not_key ld "id" hid]
    simp
  constructor
  · rw [create_listing_mock, list_listings_mock]
    simp only [Option.getD_some]
    rw [List.mem_filter]
    refine ⟨List.mem_append_right _ (List.mem_singleton.mpr rfl), ?_⟩
    simpa using hgetslug
  · exact hgetid

/-- Witness for the amended C9 at a concrete input. -/
theorem C9_witness :
    (create_listing_mock "listing_5_9" "shoes" [("title", "Boots")] none).1
        ∈ list_listings_mock "shoes"
            (some (create_listing_mock "listing_5_9" "shoes" [("title", "Boots")] none).2) := by
  exact (C9_mock_create_then_list "listing_5_9" "shoes" [("title", "Boots")] none
    (by decide) (by decide)).1

end DirectoryMonster
